import Mathlib

/-!
Shallow embedding of `openstack_auth` (django-openstack-auth): the
permission predicates and user model of `openstack_auth/user.py` and the
token/URL/cache helpers of `openstack_auth/utils.py`, with theorems about
the behaviours the specification describes.

Python-value conventions used throughout:
* a Python value that may be `None` is an `Option`;
* Python `a or b` (truthiness-based) is modelled by the `pyOr*` helpers,
  where `None`, the empty string and the empty list are falsy;
* dictionaries keyed by strings are association lists.
-/

namespace OpenstackAuth

/-- Python `a or b` for optional strings: `None` and `""` are falsy. -/
def pyOrOpt (a b : Option String) : Option String :=
  match a with
  | some s => if s = "" then b else some s
  | none => b

/-- Python `a or []` for an optional list. -/
def pyOrList {α : Type} (a : Option (List α)) : List α :=
  match a with
  | some l => l
  | none => []

/-! ## Permissions (`User.has_a_matching_perm`, `User.has_perms`,
`user.py` lines 293-339).

`User.has_perm` is inherited from the web framework's user model; it is
abstracted as a boolean function `hasPerm` from permission strings. An
element of a `has_perms` argument list is either a permission string or a
tuple of alternative permission strings. -/

inductive Perm where
  | str (s : String)
  | tup (ps : List String)
deriving DecidableEq

/-- `User.has_a_matching_perm(perm_list)`: `True` on an empty list,
otherwise `True` iff `has_perm` holds for at least one element. -/
def has_a_matching_perm (hasPerm : String → Bool) (perm_list : List String) : Bool :=
  match perm_list with
  | [] => true
  | _ => perm_list.any hasPerm

/-- `User.has_perms(perm_list)`: `True` on an empty list, otherwise every
string element must satisfy `has_perm` and every tuple element must
satisfy `has_a_matching_perm`. -/
def has_perms (hasPerm : String → Bool) (perm_list : List Perm) : Bool :=
  match perm_list with
  | [] => true
  | _ => perm_list.all fun p =>
      match p with
      | .str s => hasPerm s
      | .tup ps => has_a_matching_perm hasPerm ps

/-- The satisfaction relation in the words of the specification's claim:
a string element is satisfied iff the user holds it, a tuple element is
satisfied iff the user holds at least one permission of the tuple. -/
def claimSat (hasPerm : String → Bool) : Perm → Prop
  | .str s => hasPerm s = true
  | .tup ps => ∃ q ∈ ps, hasPerm q = true

/-- The satisfaction relation amended at the empty tuple: an empty tuple
element is vacuously satisfied. -/
def amendedSat (hasPerm : String → Bool) : Perm → Prop
  | .str s => hasPerm s = true
  | .tup ps => ps = [] ∨ ∃ q ∈ ps, hasPerm q = true

theorem has_a_matching_perm_iff (hasPerm : String → Bool) (ps : List String) :
    has_a_matching_perm hasPerm ps = true ↔ ps = [] ∨ ∃ q ∈ ps, hasPerm q = true := by
  cases ps with
  | nil => simp [has_a_matching_perm]
  | cons a l => simp [has_a_matching_perm, List.any_eq_true]

/-- C1 (counterexample): for a user holding no permissions, the claim's
reading makes `has_perms([()])` false (the empty tuple has no alternative
the user holds), but the code returns `True`. -/
theorem has_perms_claim_counterexample :
    ¬ (has_perms (fun _ => false) [Perm.tup []] = true ↔
        ∀ p ∈ [Perm.tup []], claimSat (fun _ => false) p) := by
  intro h
  have h1 : has_perms (fun _ => false) [Perm.tup []] = true := by
    simp [has_perms, has_a_matching_perm]
  have h2 := h.mp h1 (Perm.tup []) (by simp)
  simp [claimSat] at h2

/-- C1 (amended): `has_perms(perm_list)` is true iff every element of the
list is satisfied, where a string element is satisfied iff the user holds
that permission and a tuple element is satisfied iff the tuple is empty or
the user holds at least one of the permissions in the tuple; in particular
`has_perms([])` is true for any user. -/
theorem has_perms_iff (hasPerm : String → Bool) (perm_list : List Perm) :
    has_perms hasPerm perm_list = true ↔ ∀ p ∈ perm_list, amendedSat hasPerm p := by
  cases perm_list with
  | nil => simp [has_perms]
  | cons a l =>
    rw [show has_perms hasPerm (a :: l) = (a :: l).all fun p =>
        match p with
        | .str s => hasPerm s
        | .tup ps => has_a_matching_perm hasPerm ps from rfl]
    rw [List.all_eq_true]
    constructor
    · intro h p hp
      have := h p hp
      cases p with
      | str s => simpa [amendedSat] using this
      | tup ps =>
        simpa [amendedSat, ← has_a_matching_perm_iff] using this
    · intro h p hp
      have := h p hp
      cases p with
      | str s => simpa [amendedSat] using this
      | tup ps =>
        simpa [amendedSat, ← has_a_matching_perm_iff] using this

/-- C10: an empty tuple element of a `has_perms` list is vacuously
satisfied: `has_a_matching_perm(())` returns true for every user, and
`has_perms([()])` returns true even for a user holding no permissions. -/
theorem empty_tuple_vacuous (hasPerm : String → Bool) :
    has_a_matching_perm hasPerm [] = true ∧
      has_perms (fun _ => false) [Perm.tup []] = true := by
  constructor
  · rfl
  · simp [has_perms, has_a_matching_perm]

/-! ## Roles and `is_superuser` (`user.py` lines 213-219). -/

structure Role where
  name : String
deriving DecidableEq

/-- `User.is_superuser`: `'admin' in [role['name'].lower() for role in
self.roles]`. -/
def is_superuser (roles : List Role) : Bool :=
  (roles.map fun role => role.name.toLower).contains "admin"

/-- C7: `is_superuser` is true iff some role's lowered name equals
`"admin"`; for an empty roles list it is false. -/
theorem is_superuser_iff (roles : List Role) :
    (is_superuser roles = true ↔ ∃ r ∈ roles, r.name.toLower = "admin") ∧
      is_superuser [] = false := by
  constructor
  · simp [is_superuser, List.mem_map, eq_comm]
  · rfl

/-! ## Token expiry (`utils.is_token_valid`, `utils.py` lines 75-101).

A Python `datetime` is modelled as its reading in UTC seconds together
with its awareness flag (`tzinfo` present or not).  Subtracting a
`timedelta` keeps the awareness; `timezone.make_aware(d, timezone.utc)`
presumes Keystone uses UTC, so it keeps the instant and sets the flag.
`timezone.now()` is timezone-aware exactly when `settings.USE_TZ` holds.
Comparing an aware datetime with a naive one raises `TypeError` in
Python, so the comparison returns `Except Unit Bool` with `.error ()`
standing for the raised `TypeError`. -/

structure Dt where
  instant : Int
  aware : Bool
deriving DecidableEq

/-- `d - datetime.timedelta(seconds=s)`. -/
def dt_sub_seconds (d : Dt) (s : Int) : Dt := ⟨d.instant - s, d.aware⟩

/-- `django.utils.timezone.is_naive`. -/
def is_naive (d : Dt) : Bool := !d.aware

/-- `timezone.make_aware(d, timezone.utc)` (presumes Keystone is UTC). -/
def make_aware_utc (d : Dt) : Dt := ⟨d.instant, true⟩

/-- `timezone.now()`: aware iff `settings.USE_TZ`. -/
def timezone_now (use_tz : Bool) (now : Int) : Dt := ⟨now, use_tz⟩

/-- Python `a > b` on datetimes: `TypeError` on a naive/aware mix. -/
def dt_gt (a b : Dt) : Except Unit Bool :=
  if a.aware = b.aware then .ok (decide (a.instant > b.instant)) else .error ()

/-- `utils.is_token_valid(token, margin)` with the margin already
resolved (the code defaults it from `settings.TOKEN_TIMEOUT_MARGIN`):
`False` when `token.expires` is `None`, otherwise compares
`expires - margin`, made aware assuming UTC when `USE_TZ` holds and the
value is naive, against `timezone.now()`. -/
def is_token_valid (expires : Option Dt) (margin : Int) (use_tz : Bool)
    (now : Int) : Except Unit Bool :=
  match expires with
  | none => .ok false
  | some e =>
    let expiration := dt_sub_seconds e margin
    let expiration :=
      if use_tz && is_naive expiration then make_aware_utc expiration else expiration
    dt_gt expiration (timezone_now use_tz now)

theorem is_token_valid_aux (e : Dt) (margin : Int) (use_tz : Bool) (now : Int)
    (h : use_tz = true ∨ e.aware = false) :
    is_token_valid (some e) margin use_tz now
      = .ok (decide (e.instant - margin > now)) := by
  rcases h with h | h
  · subst h
    cases ha : e.aware <;>
      simp [is_token_valid, dt_sub_seconds, is_naive, make_aware_utc,
        timezone_now, dt_gt, ha]
  · simp [is_token_valid, dt_sub_seconds, is_naive, make_aware_utc,
      timezone_now, dt_gt, h]
    cases use_tz <;> simp

/-- C2 (counterexample): `is_token_valid` is not raise-free.  With
`USE_TZ = False` the framework's `timezone.now()` is naive; a token whose
expiry is timezone-aware then hits Python's naive/aware comparison
`TypeError` (nothing in the function catches it). -/
theorem is_token_valid_raises :
    is_token_valid (some ⟨100, true⟩) 0 false 0 = .error () := rfl

/-- C2 (amended): `is_token_valid(token, margin)` returns false when the
token has no expiry; otherwise, except when the framework uses naive
datetimes while the expiry is timezone-aware (in which case the
comparison raises `TypeError`), it returns true iff expiry minus margin,
made timezone-aware assuming UTC when the framework uses timezone-aware
datetimes, is strictly greater than the current time; consequently, for
margin ≥ 0, an expiry at or before the current time yields false and an
expiry more than margin seconds in the future yields true. -/
theorem is_token_valid_spec (expires : Option Dt) (margin : Int)
    (use_tz : Bool) (now : Int) :
    (expires = none → is_token_valid expires margin use_tz now = .ok false) ∧
    (∀ e, expires = some e → (use_tz = true ∨ e.aware = false) →
      is_token_valid expires margin use_tz now
        = .ok (decide (e.instant - margin > now))) ∧
    (∀ e, expires = some e → use_tz = false → e.aware = true →
      is_token_valid expires margin use_tz now = .error ()) ∧
    (∀ e, expires = some e → (use_tz = true ∨ e.aware = false) →
      0 ≤ margin → e.instant ≤ now →
      is_token_valid expires margin use_tz now = .ok false) ∧
    (∀ e, expires = some e → (use_tz = true ∨ e.aware = false) →
      now + margin < e.instant →
      is_token_valid expires margin use_tz now = .ok true) := by
  refine ⟨?_, ?_, ?_, ?_, ?_⟩
  · rintro rfl
    rfl
  · rintro e rfl h
    exact is_token_valid_aux e margin use_tz now h
  · rintro e rfl h ha
    subst h
    simp [is_token_valid, dt_sub_seconds, is_naive, make_aware_utc,
      timezone_now, dt_gt, ha]
  · rintro e rfl h hm hle
    have h2 := (is_token_valid_aux e margin use_tz now h)
    rw [h2]
    simp only [Except.ok.injEq, decide_eq_false_iff_not, not_lt]
    omega
  · rintro e rfl h hlt
    have h2 := (is_token_valid_aux e margin use_tz now h)
    rw [h2]
    simp only [Except.ok.injEq, decide_eq_true_eq]
    omega

theorem is_token_valid_spec_witness :
    is_token_valid (some ⟨10, true⟩) 3 true 0 = .ok true ∧
      is_token_valid none 3 true 0 = .ok false := by
  constructor
  · exact (is_token_valid_spec (some ⟨10, true⟩) 3 true 0).2.2.2.2
      ⟨10, true⟩ rfl (Or.inl rfl) (by decide)
  · exact (is_token_valid_spec none 3 true 0).1 rfl

/-! ## The authorized-projects cache (`utils.memoize_by_keyword_arg`,
`utils._PROJECT_CACHE`, `utils.remove_project_cache`,
`utils.get_project_list`; `utils.py` lines 35, 119-147, 315-331).

`get_project_list` is wrapped by
`memoize_by_keyword_arg(_PROJECT_CACHE, ('token',))`.  The wrapper joins
the string forms of the listed keyword arguments (here just `token`) into
`mem_args`; when `mem_args` is falsy (the empty string) it calls the
function WITHOUT consulting or filling the cache.  The underlying fetch
talks to Keystone and builds a new list object on every call; it is
modelled as an allocator handing out fresh object identities (`Nat`), the
list contents being outside the embedding.  The cache maps `mem_args`
keys to the identity of the cached result object. -/

abbrev ProjectCache := List (String × Nat)

structure FetchWorld where
  nextId : Nat
deriving DecidableEq

/-- One upstream Keystone fetch: returns a fresh result object. -/
def upstream_fetch (w : FetchWorld) : Nat × FetchWorld :=
  (w.nextId, ⟨w.nextId + 1⟩)

structure CallResult where
  result : Nat
  cache : ProjectCache
  world : FetchWorld
  fetched : Bool
deriving DecidableEq

/-- `utils.get_project_list(token=...)` as seen through the
`memoize_by_keyword_arg(_PROJECT_CACHE, ('token',))` wrapper:
`mem_args` is the token's string form; a falsy (empty) `mem_args`
bypasses the cache; otherwise a hit returns the cached object and a miss
fetches and stores. -/
def get_project_list (token : String) (cache : ProjectCache)
    (w : FetchWorld) : CallResult :=
  let mem_args := token
  if mem_args = "" then
    let (r, w') := upstream_fetch w
    ⟨r, cache, w', true⟩
  else
    match cache.lookup mem_args with
    | some r => ⟨r, cache, w, false⟩
    | none =>
      let (r, w') := upstream_fetch w
      ⟨r, (mem_args, r) :: cache, w', true⟩

/-- `utils.remove_project_cache(token)`: `_PROJECT_CACHE.pop(token, None)`. -/
def remove_project_cache (token : String) (cache : ProjectCache) : ProjectCache :=
  cache.filter fun e => !(e.1 == token)

theorem lookup_remove_project_cache (token : String) (cache : ProjectCache) :
    (remove_project_cache token cache).lookup token = none := by
  induction cache with
  | nil => rfl
  | cons e t ih =>
    by_cases h : e.1 = token
    · have heq : remove_project_cache token (e :: t)
          = remove_project_cache token t := by
        simp [remove_project_cache, List.filter_cons, h]
      rw [heq]
      exact ih
    · have heq : remove_project_cache token (e :: t)
          = e :: remove_project_cache token t := by
        simp [remove_project_cache, List.filter_cons, h]
      rw [heq]
      have hstep : (e :: remove_project_cache token t).lookup token
          = (remove_project_cache token t).lookup token := by
        simp [List.lookup, show (token == e.1) = false by
          simp [Ne.symm h]]
      rw [hstep]
      exact ih

/-- C3 (counterexample): for the empty-string token the wrapper's
`mem_args` is falsy, so the cache is bypassed: both calls perform the
upstream fetch and the two returned list objects are distinct, against
the claim that the second call returns the identical cached object
without a second fetch. -/
theorem get_project_list_empty_token_not_cached :
    (get_project_list "" [] ⟨0⟩).fetched = true ∧
      (get_project_list "" (get_project_list "" [] ⟨0⟩).cache
        (get_project_list "" [] ⟨0⟩).world).fetched = true ∧
      (get_project_list "" (get_project_list "" [] ⟨0⟩).cache
          (get_project_list "" [] ⟨0⟩).world).result
        ≠ (get_project_list "" [] ⟨0⟩).result := by
  decide

/-- C3 (amended): for every token whose string form is non-empty and not
yet cached, the first `get_project_list` call fetches and caches; a
second call with the same token returns the identical cached object
without fetching; and after `remove_project_cache(token)` a further call
fetches afresh. -/
theorem get_project_list_cache_spec (token : String) (cache : ProjectCache)
    (w : FetchWorld) (hne : token ≠ "") (hmiss : cache.lookup token = none) :
    (get_project_list token cache w).fetched = true ∧
    (get_project_list token (get_project_list token cache w).cache
        (get_project_list token cache w).world).result
      = (get_project_list token cache w).result ∧
    (get_project_list token (get_project_list token cache w).cache
        (get_project_list token cache w).world).fetched = false ∧
    (get_project_list token
        (remove_project_cache token (get_project_list token cache w).cache)
        (get_project_list token cache w).world).fetched = true := by
  refine ⟨?_, ?_, ?_, ?_⟩ <;>
    simp [get_project_list, upstream_fetch, hne, hmiss, List.lookup,
      lookup_remove_project_cache]

theorem get_project_list_cache_spec_witness :
    (get_project_list "tok" [] ⟨0⟩).fetched = true ∧
    (get_project_list "tok" (get_project_list "tok" [] ⟨0⟩).cache
        (get_project_list "tok" [] ⟨0⟩).world).result
      = (get_project_list "tok" [] ⟨0⟩).result ∧
    (get_project_list "tok" (get_project_list "tok" [] ⟨0⟩).cache
        (get_project_list "tok" [] ⟨0⟩).world).fetched = false ∧
    (get_project_list "tok"
        (remove_project_cache "tok" (get_project_list "tok" [] ⟨0⟩).cache)
        (get_project_list "tok" [] ⟨0⟩).world).fetched = true :=
  get_project_list_cache_spec "tok" [] ⟨0⟩ (by decide) rfl

/-! ## Service catalog and regions (`utils.get_endpoint_region`,
`utils.default_services_region`, `utils.py` lines 334-365 and 381-390;
`User.default_services_region`, `user.py` lines 247-258).

An endpoint dictionary may carry `region_id` (Keystone v3) and/or
`region`; a missing key or a `None` value is `none`.  A service carries a
`type` (`none` when the key is missing or `None`) and its endpoints
(`[]` when the `endpoints` key is missing). -/

structure Endpoint where
  region_id : Option String
  region : Option String
deriving DecidableEq

structure Service where
  type : Option String
  endpoints : List Endpoint
deriving DecidableEq

/-- `utils.get_endpoint_region`: `endpoint.get('region_id') or
endpoint.get('region')`. -/
def get_endpoint_region (e : Endpoint) : Option String :=
  pyOrOpt e.region_id e.region

/-- The first list comprehension of `utils.default_services_region`: the
regions of every endpoint of every service whose type is present and not
`'identity'`, in catalog order. -/
def non_identity_regions (catalog : List Service) : List (Option String) :=
  (catalog.filter fun s => s.type.isSome && !(s.type == some "identity")).flatMap
    fun s => s.endpoints.map get_endpoint_region

/-- The fallback list comprehension of `utils.default_services_region`:
the regions of every endpoint of every service. -/
def all_regions (catalog : List Service) : List (Option String) :=
  catalog.flatMap fun s => s.endpoints.map get_endpoint_region

/-- The `available_regions` value `utils.default_services_region` ends up
with: the non-identity regions, or all regions when there are none. -/
def available_regions (catalog : List Service) : List (Option String) :=
  let ar := non_identity_regions catalog
  if ar.isEmpty then all_regions catalog else ar

/-- `utils.default_services_region(service_catalog, request)`.  The
request is `none` when absent; when present it carries the value of the
`services_region` cookie (`none` when the cookie is unset, in which case
`COOKIES.get` falls back to `available_regions[0]`). -/
def default_services_region (catalog : List Service)
    (request : Option (Option String)) : Option String :=
  if catalog.isEmpty then none
  else
    match available_regions catalog with
    | [] => none
    | first :: rest =>
      let selected : Option String :=
        match request with
        | none => none
        | some cookie =>
          match cookie with
          | some c => some c
          | none => first
      if selected ∈ first :: rest then selected else first

/-- `User.default_services_region` (`user.py`): the first endpoint's
`region` of the first service that is not of type `identity` and has an
endpoint; `None` otherwise. -/
def user_default_services_region : List Service → Option String
  | [] => none
  | s :: rest =>
    if s.type == some "identity" then user_default_services_region rest
    else
      match s.endpoints with
      | [] => user_default_services_region rest
      | e :: _ => e.region

/-- C8: with every catalog region an actual string, the selection picks
the head of the non-identity region list (the first non-identity
service's first endpoint region in catalog order) when no request is
given; a request whose `services_region` cookie names a region still
present among the available regions gets that region back; an empty
catalog yields `None`. -/
theorem default_services_region_spec :
    (∀ request, default_services_region [] request = none) ∧
    (∀ (catalog : List Service) (r : String) (rest : List (Option String)),
      non_identity_regions catalog = some r :: rest →
      none ∉ (some r :: rest : List (Option String)) →
      default_services_region catalog none = some r) ∧
    (∀ (catalog : List Service) (c : String),
      catalog.isEmpty = false →
      some c ∈ available_regions catalog →
      default_services_region catalog (some (some c)) = some c) := by
  refine ⟨?_, ?_, ?_⟩
  · intro request
    rfl
  · intro catalog r rest h hnone
    have hav : available_regions catalog = some r :: rest := by
      simp [available_regions, h]
    have hcat : catalog.isEmpty = false := by
      cases catalog with
      | nil => simp [non_identity_regions] at h
      | cons s t => rfl
    simp [default_services_region, hcat, hav, hnone]
  · intro catalog c hcat hmem
    cases hav : available_regions catalog with
    | nil =>
      rw [hav] at hmem
      simp at hmem
    | cons first rest =>
      rw [hav] at hmem
      simp [default_services_region, hcat, hav, hmem]

theorem default_services_region_spec_witness :
    default_services_region
        [⟨some "identity", [⟨none, some "r0"⟩]⟩,
         ⟨some "compute", [⟨some "r1", none⟩, ⟨none, some "r2"⟩]⟩]
        none = some "r1" ∧
      default_services_region
        [⟨some "identity", [⟨none, some "r0"⟩]⟩,
         ⟨some "compute", [⟨some "r1", none⟩, ⟨none, some "r2"⟩]⟩]
        (some (some "r2")) = some "r2" := by
  constructor
  · exact default_services_region_spec.2.1
      [⟨some "identity", [⟨none, some "r0"⟩]⟩,
       ⟨some "compute", [⟨some "r1", none⟩, ⟨none, some "r2"⟩]⟩]
      "r1" [some "r2"] (by decide) (by decide)
  · exact default_services_region_spec.2.2
      [⟨some "identity", [⟨none, some "r0"⟩]⟩,
       ⟨some "compute", [⟨some "r1", none⟩, ⟨none, some "r2"⟩]⟩]
      "r2" (by decide) (by decide)

/-! ## The `User` object (`user.py` lines 158-289).

The Keystone token an authenticated user carries is opaque here (only
its presence matters), as are the project objects the tenant list holds
(modelled by their names). -/

inductive KeystoneError where
  | clientException
  | authorizationFailure
deriving DecidableEq

structure UserT where
  id : Option String
  pk : Option String
  token : Option Nat
  username : Option String
  user_domain_id : Option String
  domain_id : Option String
  domain_name : Option String
  project_id : Option String
  project_name : Option String
  service_catalog : List Service
  services_region : Option String
  roles : List Role
  endpoint : Option String
  enabled : Bool
  authorized_tenants : Option (List String)
  tenant_id : Option String
  tenant_name : Option String
deriving DecidableEq

/-- `User.__init__` with its keyword arguments in source order.  The
computed `project_id`/`project_name` use Python `or` fallbacks to the
deprecated tenant arguments; `_services_region` falls back to
`User.default_services_region()`; the deprecated `tenant_id` and
`tenant_name` attributes are assigned from the computed project pair. -/
def User.init (id : Option String) (token : Option Nat)
    (user : Option String) (tenant_id : Option String)
    (service_catalog : List Service) (tenant_name : Option String)
    (roles : Option (List Role)) (authorized_tenants : Option (List String))
    (endpoint : Option String) (enabled : Bool)
    (services_region : Option String) (user_domain_id : Option String)
    (domain_id : Option String) (domain_name : Option String)
    (project_id : Option String) (project_name : Option String) : UserT :=
  let computed_project_id := pyOrOpt project_id tenant_id
  let computed_project_name := pyOrOpt project_name tenant_name
  { id := id
    pk := id
    token := token
    username := user
    user_domain_id := user_domain_id
    domain_id := domain_id
    domain_name := domain_name
    project_id := computed_project_id
    project_name := computed_project_name
    service_catalog := service_catalog
    services_region :=
      pyOrOpt services_region (user_default_services_region service_catalog)
    roles := pyOrList roles
    endpoint := endpoint
    enabled := enabled
    authorized_tenants := authorized_tenants
    tenant_id := computed_project_id
    tenant_name := computed_project_name }

/-- `User.save` (`user.py`): a no-op (cannot write to Keystone). -/
def User.save (u : UserT) : UserT := u

/-- `User.delete` (`user.py`): a no-op (cannot write to Keystone). -/
def User.delete (u : UserT) : UserT := u

/-- The `services_region` property setter. -/
def User.set_services_region (u : UserT) (region : Option String) : UserT :=
  { u with services_region := region }

/-- The `authorized_tenants` property setter. -/
def User.set_authorized_tenants (u : UserT) (tenant_list : List String) : UserT :=
  { u with authorized_tenants := some tenant_list }

/-- The `authorized_tenants` property getter (`user.py` lines 221-241).
`authenticated` is the outcome of `self.is_authenticated()`; `fetch` is
the outcome of the upstream `get_project_list` call (a project list, or a
raised `keystone_exceptions` error).  On an error the exception is logged
and swallowed, `_authorized_tenants` stays `None`; the final return is
`self._authorized_tenants or []`. -/
def User.authorized_tenants_get (u : UserT) (authenticated : Bool)
    (fetch : Except KeystoneError (List String)) : List String × UserT :=
  let u' :=
    if authenticated && u.authorized_tenants.isNone then
      match fetch with
      | .ok tenants => { u with authorized_tenants := some tenants }
      | .error _ => u
    else u
  (pyOrList u'.authorized_tenants, u')

/-- C4: when the upstream project-list fetch raises a client or
authorization-failure exception, the `authorized_tenants` accessor of an
authenticated user (with no memoized list yet) swallows it and returns
the empty list, leaving the user unchanged. -/
theorem authorized_tenants_error_empty (u : UserT) (err : KeystoneError)
    (hc : u.authorized_tenants = none) :
    (User.authorized_tenants_get u true (.error err)).1 = [] ∧
      (User.authorized_tenants_get u true (.error err)).2 = u := by
  simp [User.authorized_tenants_get, hc, pyOrList]

theorem authorized_tenants_error_empty_witness :
    (User.authorized_tenants_get
        (User.init none none none none [] none none none none false
          none none none none none none)
        true (.error KeystoneError.clientException)).1 = [] :=
  (authorized_tenants_error_empty
    (User.init none none none none [] none none none none false
      none none none none none none)
    KeystoneError.clientException rfl).1

/-- The project/tenant alias synchronisation invariant of C9. -/
def SyncAliases (u : UserT) : Prop :=
  u.tenant_id = u.project_id ∧ u.tenant_name = u.project_name

/-- C9: `User.__init__` leaves `tenant_id`/`tenant_name` equal to the
computed `project_id`/`project_name` (which fall back to the tenant
arguments when the project arguments are absent), and every `User`
operation — `save`, `delete`, the `services_region` and
`authorized_tenants` setters and the `authorized_tenants` getter —
preserves that synchronisation. -/
theorem user_aliases_synchronized :
    (∀ id token user tenant_id service_catalog tenant_name roles
        authorized_tenants endpoint enabled services_region user_domain_id
        domain_id domain_name project_id project_name,
      SyncAliases (User.init id token user tenant_id service_catalog
        tenant_name roles authorized_tenants endpoint enabled services_region
        user_domain_id domain_id domain_name project_id project_name) ∧
      (User.init id token user tenant_id service_catalog tenant_name roles
          authorized_tenants endpoint enabled services_region user_domain_id
          domain_id domain_name project_id project_name).project_id
        = pyOrOpt project_id tenant_id ∧
      (User.init id token user tenant_id service_catalog tenant_name roles
          authorized_tenants endpoint enabled services_region user_domain_id
          domain_id domain_name project_id project_name).project_name
        = pyOrOpt project_name tenant_name) ∧
    (∀ u : UserT, SyncAliases u →
      SyncAliases (User.save u) ∧ SyncAliases (User.delete u) ∧
      (∀ region, SyncAliases (User.set_services_region u region)) ∧
      (∀ tenant_list, SyncAliases (User.set_authorized_tenants u tenant_list)) ∧
      (∀ authenticated fetch,
        SyncAliases (User.authorized_tenants_get u authenticated fetch).2)) := by
  constructor
  · intro id token user tenant_id service_catalog tenant_name roles
      authorized_tenants endpoint enabled services_region user_domain_id
      domain_id domain_name project_id project_name
    exact ⟨⟨rfl, rfl⟩, rfl, rfl⟩
  · intro u hu
    refine ⟨hu, hu, fun region => ?_, fun tenant_list => ?_,
      fun authenticated fetch => ?_⟩
    · exact ⟨hu.1, hu.2⟩
    · exact ⟨hu.1, hu.2⟩
    · unfold User.authorized_tenants_get
      rcases fetch with err | tenants <;>
        cases hb : authenticated && u.authorized_tenants.isNone <;>
        simpa [hb] using hu

theorem user_aliases_synchronized_witness :
    SyncAliases (User.init none none none (some "t1") [] (some "tn") none
      none none false none none none none none none) ∧
      SyncAliases (User.set_services_region
        (User.init none none none (some "t1") [] (some "tn") none none none
          false none none none none none none) (some "r")) := by
  constructor
  · exact (user_aliases_synchronized.1 none none none (some "t1") [] (some "tn")
      none none none false none none none none none none).1
  · exact ((user_aliases_synchronized.2
      (User.init none none none (some "t1") [] (some "tn") none none none
        false none none none none none none)
      ⟨rfl, rfl⟩).2.2.1 (some "r"))

/-! ## WebSSO endpoint construction (`utils.build_absolute_uri`,
`utils.get_websso_url`, `utils.py` lines 180-260). -/

/-- Python truthiness of an optional string (`None` and `""` falsy). -/
def pyTruthyStr (o : Option String) : Bool :=
  match o with
  | some s => !(s == "")
  | none => false

/-- `utils.build_absolute_uri(request, relative_url)`: the web root is
glued to the relative URL (dropping a doubled slash) and made absolute
against the request's scheme-and-host prefix. -/
def build_absolute_uri (host webroot relative_url : String) : String :=
  let webroot' :=
    if webroot.endsWith "/" && relative_url.startsWith "/" then
      webroot.dropRight 1
    else webroot
  host ++ (webroot' ++ relative_url)

/-- `utils.get_websso_url(request, auth_url, websso_auth)` with the
configured `WEBSSO_IDP_MAPPING` passed explicitly.  The selected
identifier is looked up in the mapping with default
`(None, websso_auth)`; a truthy `idp_id` selects the IdP-specific
endpoint, anything else the per-protocol endpoint. -/
def get_websso_url (host webroot auth_url websso_auth : String)
    (idp_mapping : List (String × String × String)) : String :=
  let origin := build_absolute_uri host webroot "/auth/websso/"
  let entry : Option String × String :=
    match idp_mapping.lookup websso_auth with
    | some (i, p) => (some i, p)
    | none => (none, websso_auth)
  let idp_id := entry.1
  let protocol_id := entry.2
  if pyTruthyStr idp_id then
    auth_url ++ "/auth/OS-FEDERATION/identity_providers/" ++ idp_id.getD ""
      ++ "/protocols/" ++ protocol_id ++ "/websso?origin=" ++ origin
  else
    auth_url ++ "/auth/OS-FEDERATION/websso/" ++ protocol_id
      ++ "?origin=" ++ origin

/-- C5 (counterexample): a mapping entry whose identity-provider id is
the empty string is found in the mapping, yet the code takes the
per-protocol branch (`if idp_id:` is falsy on `""`), not the
IdP-specific URL the claim promises for every found entry. -/
theorem get_websso_url_empty_idp_counterexample :
    List.lookup "m" [("m", ("", "p"))] = some ("", "p") ∧
      get_websso_url "https://h" "" "https://idp/v3" "m" [("m", ("", "p"))]
        = "https://idp/v3/auth/OS-FEDERATION/websso/p?origin=https://h/auth/websso/" ∧
      get_websso_url "https://h" "" "https://idp/v3" "m" [("m", ("", "p"))]
        ≠ "https://idp/v3/auth/OS-FEDERATION/identity_providers//protocols/p/websso?origin=https://h/auth/websso/" := by
  refine ⟨rfl, rfl, ?_⟩
  decide

/-- C5 (amended): if a mapping entry `(idp, protocol)` with non-empty
`idp` is found for the selected identifier, the URL is
`auth_url + '/auth/OS-FEDERATION/identity_providers/<idp>/protocols/<protocol>/websso?origin=<origin>'`;
when no entry is found the identifier itself is the protocol id, and an
entry with empty `idp` falls back to that entry's protocol id, giving
`auth_url + '/auth/OS-FEDERATION/websso/<protocol>?origin=<origin>'`;
`origin` is the absolute `/auth/websso/` callback under the configured
web root. -/
theorem get_websso_url_spec (host webroot auth_url websso_auth : String)
    (idp_mapping : List (String × String × String)) :
    (∀ idp protocol,
      idp_mapping.lookup websso_auth = some (idp, protocol) → idp ≠ "" →
      get_websso_url host webroot auth_url websso_auth idp_mapping
        = auth_url ++ "/auth/OS-FEDERATION/identity_providers/" ++ idp
          ++ "/protocols/" ++ protocol ++ "/websso?origin="
          ++ build_absolute_uri host webroot "/auth/websso/") ∧
    (idp_mapping.lookup websso_auth = none →
      get_websso_url host webroot auth_url websso_auth idp_mapping
        = auth_url ++ "/auth/OS-FEDERATION/websso/" ++ websso_auth
          ++ "?origin=" ++ build_absolute_uri host webroot "/auth/websso/") ∧
    (∀ protocol,
      idp_mapping.lookup websso_auth = some ("", protocol) →
      get_websso_url host webroot auth_url websso_auth idp_mapping
        = auth_url ++ "/auth/OS-FEDERATION/websso/" ++ protocol
          ++ "?origin=" ++ build_absolute_uri host webroot "/auth/websso/") := by
  refine ⟨?_, ?_, ?_⟩
  · intro idp protocol h hne
    simp [get_websso_url, h, pyTruthyStr, hne]
  · intro h
    simp [get_websso_url, h, pyTruthyStr]
  · intro protocol h
    simp [get_websso_url, h, pyTruthyStr]

theorem get_websso_url_spec_witness :
    get_websso_url "https://h" "" "https://idp/v3" "acme_oidc"
        [("acme_oidc", ("acme", "oidc"))]
      = "https://idp/v3/auth/OS-FEDERATION/identity_providers/acme/protocols/oidc/websso?origin=https://h/auth/websso/" ∧
      get_websso_url "https://h" "" "https://idp/v3" "saml2"
          [("acme_oidc", ("acme", "oidc"))]
        = "https://idp/v3/auth/OS-FEDERATION/websso/saml2?origin=https://h/auth/websso/" := by
  constructor
  · rw [(get_websso_url_spec "https://h" "" "https://idp/v3" "acme_oidc"
      [("acme_oidc", ("acme", "oidc"))]).1 "acme" "oidc" rfl (by decide)]
    rfl
  · rw [(get_websso_url_spec "https://h" "" "https://idp/v3" "saml2"
      [("acme_oidc", ("acme", "oidc"))]).2.1 rfl]
    rfl

/-! ## Auth-URL version fixup (`utils.has_in_url_path`,
`utils.url_path_replace`, `utils.fix_auth_url_version`, `utils.py`
lines 263-298).

`urlsplit` output is modelled directly as the five URL components; the
fixup only ever touches the path component.  `str.replace(old, new, 1)`
(replace the first occurrence) is defined on character lists. -/

/-- Python `sub in s` on character lists. -/
def containsSub (pat : List Char) : List Char → Bool
  | [] => pat.isPrefixOf []
  | c :: t => pat.isPrefixOf (c :: t) || containsSub pat t

/-- Python `s.replace(pat, new, 1)` on character lists: replace the first
occurrence of `pat` (assumed non-empty) in `s` by `new`. -/
def replaceFirstSub (pat new : List Char) : List Char → List Char
  | [] => []
  | c :: t =>
    if pat.isPrefixOf (c :: t) then new ++ (c :: t).drop pat.length
    else c :: replaceFirstSub pat new t

structure SplitUrl where
  scheme : String
  netloc : String
  path : String
  query : String
  fragment : String
deriving DecidableEq

/-- `utils.has_in_url_path(url, sub)`: `sub in path` for the split URL's
path component. -/
def has_in_url_path (url : SplitUrl) (sub : String) : Bool :=
  containsSub sub.data url.path.data

/-- `utils.url_path_replace(url, old, new, 1)` (the only instantiation
the module makes): the first occurrence of `old` in the path component is
replaced by `new`, the other components are untouched. -/
def url_path_replace (url : SplitUrl) (old new : String) : SplitUrl :=
  { url with path := ⟨replaceFirstSub old.data new.data url.path.data⟩ }

/-- `utils.fix_auth_url_version(auth_url)` with the configured identity
API version (`utils.get_keystone_version()`) passed explicitly. -/
def fix_auth_url_version (keystone_version : Int) (auth_url : SplitUrl) :
    SplitUrl :=
  if 3 ≤ keystone_version then
    if has_in_url_path auth_url "/v2.0" then
      url_path_replace auth_url "/v2.0" "/v3"
    else auth_url
  else auth_url

theorem replaceFirstSub_of_not_contains (pat new s : List Char)
    (h : containsSub pat s = false) : replaceFirstSub pat new s = s := by
  induction s with
  | nil => rfl
  | cons c t ih =>
    rw [containsSub, Bool.or_eq_false_iff] at h
    rw [replaceFirstSub, if_neg (by simp [h.1]), ih h.2]

theorem replaceFirstSub_first_occurrence (pat new s : List Char)
    (hpat : pat ≠ []) (h : containsSub pat s = true) :
    ∃ a b, s = a ++ pat ++ b ∧
      replaceFirstSub pat new s = a ++ new ++ b ∧
      ∀ a' b', s = a' ++ pat ++ b' → a.length ≤ a'.length := by
  induction s with
  | nil =>
    rw [containsSub, List.isPrefixOf_iff_prefix] at h
    rcases h with ⟨u, hu⟩
    rcases List.append_eq_nil.mp hu with ⟨h1, _⟩
    exact absurd h1 hpat
  | cons c t ih =>
    by_cases hp : pat.isPrefixOf (c :: t)
    · rcases List.isPrefixOf_iff_prefix.mp hp with ⟨u, hu⟩
      refine ⟨[], u, ?_, ?_, ?_⟩
      · simp [← hu]
      · rw [replaceFirstSub, if_pos hp, ← hu, List.drop_left]
        simp
      · intro a' b' _
        simp
    · rw [containsSub, Bool.or_eq_true] at h
      rcases h with h | h
      · exact absurd h (by simpa using hp)
      · rcases ih h with ⟨a, b, hs, hr, hmin⟩
        refine ⟨c :: a, b, ?_, ?_, ?_⟩
        · simp [hs]
        · rw [replaceFirstSub, if_neg (by simpa using hp), hr]
          simp
        · intro a' b' heq
          cases a' with
          | nil =>
            exfalso
            apply hp
            rw [List.isPrefixOf_iff_prefix]
            exact ⟨b', by simpa using heq.symm⟩
          | cons c' a'' =>
            have ht : t = a'' ++ pat ++ b' := by
              simpa using (by simpa using heq : c = c' ∧ t = a'' ++ (pat ++ b')).2
            have := hmin a'' b' ht
            simpa using Nat.succ_le_succ this

/-- C6: with the configured identity API version below 3, or with no
`/v2.0` occurrence in the URL path, `fix_auth_url_version` returns the
URL unchanged (in particular v3 URLs are untouched); with version 3 or
greater and `/v2.0` present in the path, exactly the first occurrence of
`/v2.0` in the path is rewritten to `/v3`, leaving scheme, netloc, query
and fragment alone. -/
theorem fix_auth_url_version_spec (v : Int) (u : SplitUrl) :
    (v < 3 → fix_auth_url_version v u = u) ∧
    (has_in_url_path u "/v2.0" = false → fix_auth_url_version v u = u) ∧
    (3 ≤ v → has_in_url_path u "/v2.0" = true →
      ∃ a b, u.path.data = a ++ "/v2.0".data ++ b ∧
        fix_auth_url_version v u
          = { u with path := ⟨a ++ "/v3".data ++ b⟩ } ∧
        ∀ a' b', u.path.data = a' ++ "/v2.0".data ++ b' →
          a.length ≤ a'.length) := by
  refine ⟨?_, ?_, ?_⟩
  · intro hv
    rw [fix_auth_url_version, if_neg (by omega)]
  · intro h
    rw [fix_auth_url_version]
    split
    · rw [if_neg (by simp [h])]
    · rfl
  · intro hv h
    rcases replaceFirstSub_first_occurrence "/v2.0".data "/v3".data
        u.path.data (by decide) h with ⟨a, b, hs, hr, hmin⟩
    refine ⟨a, b, hs, ?_, hmin⟩
    rw [fix_auth_url_version, if_pos hv, if_pos h, url_path_replace, hr]

theorem fix_auth_url_version_spec_witness :
    fix_auth_url_version 2 ⟨"http", "x", "/v2.0", "", ""⟩
        = ⟨"http", "x", "/v2.0", "", ""⟩ ∧
      fix_auth_url_version 3 ⟨"http", "x", "/v3", "", ""⟩
        = ⟨"http", "x", "/v3", "", ""⟩ := by
  constructor
  · exact (fix_auth_url_version_spec 2 ⟨"http", "x", "/v2.0", "", ""⟩).1
      (by omega)
  · exact (fix_auth_url_version_spec 3 ⟨"http", "x", "/v3", "", ""⟩).2.1
      (by decide)

end OpenstackAuth
